import Mathlib

/-
Verification of the techdebt repository lessons: a shallow embedding of the
Go lesson functions (resource-lifecycle patterns) and of the loan domain
model, with theorems settling the specification claims. Go byte slices are
List UInt8, time instants and durations are Int (nanoseconds), float64
amounts are Rat, maps are association lists with unique keys, and the
side-effecting lesson functions are embedded as the event traces of their
execution paths.
-/

namespace loan

/-- Loan status constants from the refactored loan package. -/
def StatusPending : String := "pending"

def StatusApproved : String := "approved"

def StatusRejected : String := "rejected"

def StatusDefault : String := "default"

/-- The Loan record of the refactored loan package. Amount and InterestRate
are float64 in Go, embedded as Rat; CreatedAt is embedded as Int. -/
structure Loan where
  ID : String
  Amount : Rat
  Status : String
  InterestRate : Rat
  CustomerID : String
  CreatedAt : Int
deriving DecidableEq, Repr

/-- Validate checks if the loan data is valid: it returns the first error
among nonpositive amount, empty customer ID, negative interest rate. -/
def Validate (l : Loan) : Option String :=
  if l.Amount ≤ 0 then some "loan amount must be positive"
  else if l.CustomerID = "" then some "customer ID is required"
  else if l.InterestRate < 0 then some "interest rate cannot be negative"
  else none

/-- Approve validates and then sets the status to StatusApproved. Go mutates
the loan through a pointer and returns the error; the embedding returns the
loan after the call paired with the returned error. -/
def Approve (l : Loan) : Loan × Option String :=
  match Validate l with
  | some e => (l, some e)
  | none => ({ l with Status := StatusApproved }, none)

end loan

namespace lesson

/-- A cache entry of BetterCache: a byte-slice value and the insertion
instant recorded by Set. -/
structure CacheItem where
  value : List UInt8
  timestamp : Int
deriving DecidableEq, Repr

/-- Go map assignment m[k] = v on an association list: the new binding
replaces any binding of the same key. -/
def storeEntry {α : Type} (k : String) (v : α) (m : List (String × α)) :
    List (String × α) :=
  (k, v) :: m.filter (fun kv => !(kv.1 == k))

/-- BetterCache.Set: insert the value with a fresh timestamp (the current
instant), under the write lock. -/
def betterCacheSet (now : Int) (key : String) (value : List UInt8)
    (items : List (String × CacheItem)) : List (String × CacheItem) :=
  storeEntry key ⟨value, now⟩ items

/-- One pass of the sweep loop in BetterCache.Cleanup: under the write lock,
delete every entry whose age now - timestamp exceeds ttl. The whole pass is
one map traversal under one Lock/Unlock pair, embedded as one atomic
function application. -/
def sweepPass (now ttl : Int) (items : List (String × CacheItem)) :
    List (String × CacheItem) :=
  items.filter (fun kv => !(decide (now - kv.2.timestamp > ttl)))

/-- Concrete two-entry cache used by the sweep witness: the entry stamped 0
is expired at instant 10 with ttl 5, the entry stamped 8 is not. -/
def sweepWitnessItems : List (String × CacheItem) :=
  [("a", ⟨[1], 0⟩), ("b", ⟨[2], 8⟩)]

/-- Events touching timers and tickers, for the traces of the lesson
functions. Timer and ticker identities are numbered in order of creation
across the embedded functions. -/
inductive TimerEv where
  | newTicker (id : Nat)
  | newTimer (id : Nat)
  | stop (id : Nat)
  | spawnGoroutine (g : Nat)
  | recvTick (id : Nat)
  | logLine
deriving DecidableEq, Repr

/-- Timer and ticker identities acquired (created) along a path. -/
def acquiredTimers : List TimerEv → List Nat
  | [] => []
  | .newTicker i :: rest => i :: acquiredTimers rest
  | .newTimer i :: rest => i :: acquiredTimers rest
  | _ :: rest => acquiredTimers rest

/-- Timer and ticker identities stopped along a path. -/
def stoppedTimers : List TimerEv → List Nat
  | [] => []
  | .stop i :: rest => i :: stoppedTimers rest
  | _ :: rest => stoppedTimers rest

/-- A set of exit paths releases its timers when on every path every timer
acquired on that path is also stopped on it. -/
def stopsAllOnExit (paths : List (List TimerEv)) : Bool :=
  paths.all (fun p => (acquiredTimers p).all (fun i => (stoppedTimers p).contains i))

/-- The body of BetterCache.Cleanup: it creates the minute ticker, spawns the
sweep goroutine and returns at once. No Stop call appears in the function. -/
def cleanupFuncPath : List TimerEv := [.newTicker 0, .spawnGoroutine 0]

/-- The exit paths of the Cleanup function itself: the single straight-line
path through its body. -/
def cleanupExitPaths : List (List TimerEv) := [cleanupFuncPath]

/-- The exit paths of the sweep goroutine spawned by Cleanup: its body is
for range ticker.C, a loop with no break, return or closed channel, so the
goroutine has no exit path at all. -/
def cleanupSweepExitPaths : List (List TimerEv) := []

/-- An exit path of the worker goroutine in GoroutineLeakWithContext: it
creates its ticker, defers Stop, loops through n tick iterations and leaves
through the ctx.Done branch, at which point the deferred Stop runs. These
are all its exit paths, one for each n. -/
def workerExitPath (n : Nat) : List TimerEv :=
  .newTicker 1 :: (List.replicate n (.recvTick 1) ++ [.stop 1])

/-- The events TimerLeak has performed when it reaches its final select with
no cases: the bad timer (2) is created and handed to a goroutine with no
Stop anywhere; the good timer (3) gets a deferred Stop, but the function then
blocks forever on the empty select, never returns, and so never runs its
deferred calls. This is the entire execution: TimerLeak has no exit path. -/
def timerLeakBodyEvents : List TimerEv :=
  [.newTimer 2, .spawnGoroutine 1, .newTimer 3, .spawnGoroutine 2]

/-- A scheduler choice inside the worker select: a ticker tick arrives, or
the context Done channel is ready. -/
inductive SelChoice where
  | tick
  | done
deriving DecidableEq, Repr

/-- Status of a lesson goroutine. -/
inductive WStatus where
  | running
  | terminated
deriving DecidableEq, Repr

/-- The select loop of the worker goroutine in GoroutineLeakWithContext, run
over a sequence of scheduler choices. A tick choice logs and loops; the done
choice is enabled only when the context is cancelled (ctx.Done is closed),
and taking it returns from the goroutine. -/
def workerRun (cancelled : Bool) : List SelChoice → WStatus
  | [] => .running
  | .tick :: rest => workerRun cancelled rest
  | .done :: rest => if cancelled then .terminated else workerRun cancelled rest

/-- The single select of the good goroutine in ChannelLeak: receiving on ch
prints and falls off the closure, the ctx.Done case returns; either enabled
branch ends the goroutine, and the select blocks only when neither channel
is ready. -/
def channelGoodStep (chReady cancelled : Bool) : WStatus :=
  if chReady || cancelled then .terminated else .running

/-- The LargeObject of the lesson package: a byte slice. -/
structure LargeObject where
  data : List UInt8
deriving DecidableEq, Repr

/-- sync.Map.Load: the stored value and whether the key was present; on an
absent key the value half is nil (none). -/
def syncMapLoad (m : List (String × LargeObject)) (k : String) :
    Option LargeObject × Bool :=
  match List.lookup k m with
  | some v => (some v, true)
  | none => (none, false)

/-- SetGlobalCache stores the value in the betterCache sync.Map. -/
def SetGlobalCache (key : String) (value : LargeObject)
    (m : List (String × LargeObject)) : List (String × LargeObject) :=
  storeEntry key value m

/-- The unchecked Go type assertion v.(*LargeObject) applied to the value
half of a Load result: on a nil interface value it does not produce a nil
pointer but aborts the program with a run-time interface-conversion error,
embedded as the error branch. -/
def assertLargeObject (v : Option LargeObject) : Except String LargeObject :=
  match v with
  | some x => .ok x
  | none => .error "interface conversion: interface is nil, not *lesson.LargeObject"

/-- GetGlobalCache: Load from the sync.Map, discard the ok flag, and pass
the value through the unchecked type assertion. -/
def GetGlobalCache (key : String) (m : List (String × LargeObject)) :
    Except String LargeObject :=
  assertLargeObject (syncMapLoad m key).1

/-- Events of the HTTPBodyLeak trace. The two http.Get acquisitions are
numbered 1 and 2 in source order. -/
inductive HEv where
  | getOk (n : Nat)
  | getErr (n : Nat)
  | readOk (n : Nat)
  | readErr (n : Nat)
  | printLen (n : Nat)
  | printErr (n : Nat)
  | closeBody (n : Nat)
deriving DecidableEq, Repr

/-- HTTPBodyLeak, parameterised by whether each http.Get and each ReadAll
succeeds: the event trace of the corresponding path and whether the function
returned a non-nil error. The first response body has no Close anywhere; the
second has a deferred Close that runs on every return after its Get. -/
def HTTPBodyLeak (g1 r1 g2 r2 : Bool) : List HEv × Bool :=
  if !g1 then ([.getErr 1], true)
  else if !r1 then ([.getOk 1, .readErr 1, .printErr 1], true)
  else if !g2 then ([.getOk 1, .readOk 1, .printLen 1, .getErr 2], true)
  else if !r2 then
    ([.getOk 1, .readOk 1, .printLen 1, .getOk 2, .readErr 2, .printErr 2,
      .closeBody 2], true)
  else
    ([.getOk 1, .readOk 1, .printLen 1, .getOk 2, .readOk 2, .printLen 2,
      .closeBody 2], false)

/-- A trace closes acquisition n when it either never acquired response body
n or contains a Close of it. -/
def closesAcquired (t : List HEv) (n : Nat) : Bool :=
  !(t.contains (.getOk n)) || t.contains (.closeBody n)

/-- Events of one iteration of the good loop in DeferInLoopLeak. -/
inductive FEv where
  | openOk
  | openErr
  | write
  | writeErr
  | printError
  | close
deriving DecidableEq, Repr

/-- One iteration of the good variant of DeferInLoopLeak: the per-iteration
closure opens the file, returns early on open failure, defers Close, writes,
and prints on write failure; the deferred Close runs when the closure
returns, on the success path and on the write-failure path alike. -/
def deferLoopIter (openOk writeOk : Bool) : List FEv :=
  if !openOk then [.openErr, .printError]
  else if !writeOk then [.openOk, .writeErr, .printError, .close]
  else [.openOk, .write, .close]

/-- Net change one event makes to the number of open file handles. -/
def openDelta : FEv → Int
  | .openOk => 1
  | .close => -1
  | _ => 0

/-- Number of file handles a trace leaves open. -/
def openCount (t : List FEv) : Int := (t.map openDelta).sum

/-- The whole good loop of DeferInLoopLeak over a list of per-iteration
outcomes (open succeeded, write succeeded): iteration traces concatenated in
order. -/
def deferLoopEvents (outs : List (Bool × Bool)) : List FEv :=
  (outs.map (fun o => deferLoopIter o.1 o.2)).flatten

/-- A Go slice header: backing array identity, offset, length, capacity. -/
structure GoSlice where
  arrId : Nat
  off : Nat
  len : Nat
  cap : Nat
deriving DecidableEq, Repr

/-- The elements a slice header views in a heap of backing arrays. -/
def elemsOf (heap : Nat → List Int) (s : GoSlice) : List Int :=
  ((heap s.arrId).drop s.off).take s.len

/-- Go copy(dst, src) on element lists: the first min of the lengths
elements of src, followed by the untouched tail of dst. -/
def goCopy (dst src : List Int) : List Int :=
  src.take (min dst.length src.length) ++ dst.drop (min dst.length src.length)

/-- SliceLeak data backing array: make of a million ints, zero valued. -/
def sliceLeakData : List Int := List.replicate 1000000 0

/-- The data slice produced by make in SliceLeak, over backing array 0. -/
def dataSlice : GoSlice := ⟨0, 0, 1000000, 1000000⟩

/-- The bad variant small = data with all but the last three elements
dropped: a reslice over the same backing array at offset 999997, keeping the
whole million-element array reachable. -/
def badSmall : GoSlice := ⟨0, 1000000 - 3, 3, 1000000 - (1000000 - 3)⟩

/-- The good variant target: make of three ints over a fresh backing array 1. -/
def goodSmallInit : GoSlice := ⟨1, 0, 3, 3⟩

/-- The heap before the copy: array 0 is the data backing array, array 1 the
fresh three-element array. -/
def sliceHeap0 : Nat → List Int := fun i =>
  if i = 0 then sliceLeakData else if i = 1 then List.replicate 3 0 else []

/-- The heap after copy(small, data with all but the last three dropped):
array 1 now holds the copied elements. -/
def sliceHeap1 : Nat → List Int := fun i =>
  if i = 1 then goCopy (List.replicate 3 0) (elemsOf sliceHeap0 badSmall)
  else sliceHeap0 i

end lesson

namespace pattern

/-- Modelled from the spec: the CancellationToken component. Its
implementation in the lessons is the Go standard library context package
(context.WithCancel in GoroutineLeakWithContext), whose code is not among
the repository sources; the state machine follows the data-model section:
state active or cancelled, once cancelled irreversible. -/
inductive TokenState where
  | active
  | cancelled
deriving DecidableEq, Repr

/-- Modelled from the spec: cancel moves any state to cancelled, is
idempotent and never fails. -/
def cancel (_ : TokenState) : TokenState := .cancelled

/-- Modelled from the spec: isCancelled observes the state. -/
def isCancelled : TokenState → Bool
  | .active => false
  | .cancelled => true

/-- Modelled from the spec: the operations any caller may subsequently
perform on a token: cancel it again, or observe it. No operation of the
token contract reactivates it. -/
inductive TokenOp where
  | cancelOp
  | observe
deriving DecidableEq, Repr

/-- Apply one token operation to the state. -/
def applyOp (s : TokenState) : TokenOp → TokenState
  | .cancelOp => cancel s
  | .observe => s

/-- Apply a sequence of token operations in order. -/
def applyOps (s : TokenState) (ops : List TokenOp) : TokenState :=
  ops.foldl applyOp s

/-- Modelled from the spec: a SupervisedTask as the supervisor sees it at
shutdown: its identifier, and the number of scheduling quanta it needs after
cancellation to reach a terminal state — none for a task that ignores its
token and never terminates. No Registry/Supervisor exists in the repository
sources; the spec presents it as the distilled pattern. -/
structure SupervisedTask where
  id : Nat
  quantaToTerminate : Option Nat
deriving DecidableEq, Repr

/-- Modelled from the spec: the supervisor owns a set of tokens and a set of
supervised tasks. -/
structure Supervisor where
  tokens : List TokenState
  tasks : List SupervisedTask
deriving Repr

/-- Whether a task reaches a terminal state within the grace period counted
from the cancellation at the start of shutdown. -/
def terminatedWithin (grace : Nat) (t : SupervisedTask) : Bool :=
  match t.quantaToTerminate with
  | some n => n ≤ grace
  | none => false

/-- Modelled from the spec: shutdown cancels every token it owns, waits at
most the grace period, and reports the identifiers of the tasks still
running when the grace period elapses; it is a total function, so it never
hangs. -/
def shutdown (sup : Supervisor) (grace : Nat) : Supervisor × List Nat :=
  ({ sup with tokens := sup.tokens.map cancel },
   (sup.tasks.filter (fun t => !(terminatedWithin grace t))).map (fun t => t.id))

end pattern

/-- A token in the cancelled state stays cancelled under any further
operation sequence. -/
lemma pattern.applyOps_cancelled (ops : List pattern.TokenOp) :
    pattern.applyOps .cancelled ops = .cancelled := by
  induction ops with
  | nil => rfl
  | cons op rest ih =>
      cases op <;> simpa [pattern.applyOps, pattern.applyOp, pattern.cancel] using ih

/-- C9: Approve returns an error exactly when Validate does — that is, when
the amount is nonpositive, the customer ID empty, or the interest rate
negative; on error the loan is unchanged, and on success the status becomes
StatusApproved, the string approved, with every other field unchanged. -/
theorem loan.approve_validates_and_sets_status (l : loan.Loan) :
    ((loan.Approve l).2.isSome ↔
      (l.Amount ≤ 0 ∨ l.CustomerID = "" ∨ l.InterestRate < 0))
  ∧ ((loan.Approve l).2 = loan.Validate l)
  ∧ ((loan.Approve l).2.isSome → (loan.Approve l).1 = l)
  ∧ ((loan.Approve l).2 = none →
      (loan.Approve l).1.Status = loan.StatusApproved
      ∧ loan.StatusApproved = "approved"
      ∧ (loan.Approve l).1.ID = l.ID
      ∧ (loan.Approve l).1.Amount = l.Amount
      ∧ (loan.Approve l).1.InterestRate = l.InterestRate
      ∧ (loan.Approve l).1.CustomerID = l.CustomerID
      ∧ (loan.Approve l).1.CreatedAt = l.CreatedAt) := by
  unfold loan.Approve loan.Validate
  by_cases h1 : l.Amount ≤ 0 <;> by_cases h2 : l.CustomerID = "" <;>
    by_cases h3 : l.InterestRate < 0 <;>
      simp [h1, h2, h3, loan.StatusApproved]

/-- C3: after cancel, isCancelled is true after every further sequence of
token operations from any caller — the cancelled state is permanent — and
cancel is idempotent. -/
theorem pattern.token_cancel_permanent (s : pattern.TokenState)
    (ops : List pattern.TokenOp) :
    pattern.isCancelled (pattern.applyOps (pattern.cancel s) ops) = true
  ∧ pattern.cancel (pattern.cancel s) = pattern.cancel s := by
  refine ⟨?_, rfl⟩
  have h : pattern.cancel s = .cancelled := rfl
  rw [h, pattern.applyOps_cancelled]
  rfl

/-- C5: GetGlobalCache on an absent key does not return a nil result: the
unchecked type assertion on the nil Load value aborts at run time, while a
stored key is returned as is. -/
theorem lesson.getGlobalCache_absent_aborts :
    lesson.GetGlobalCache "missing" [] =
      .error "interface conversion: interface is nil, not *lesson.LargeObject"
  ∧ (lesson.syncMapLoad [] "missing").2 = false
  ∧ lesson.GetGlobalCache "key"
      (lesson.SetGlobalCache "key" ⟨[7]⟩ []) = .ok ⟨[7]⟩ := by
  exact ⟨rfl, rfl, rfl⟩

/-- C6 counterexample: on the path of HTTPBodyLeak where both Gets and both
reads succeed, the first response body is acquired and is never closed
before the function returns. -/
theorem lesson.httpBodyLeak_first_body_not_closed :
    lesson.closesAcquired (lesson.HTTPBodyLeak true true true true).1 1 = false
  ∧ (lesson.HTTPBodyLeak true true true true).1.contains (.getOk 1) = true := by
  exact ⟨rfl, rfl⟩

/-- C6 amended: on every path of HTTPBodyLeak, the second response body —
the only one with a deferred Close — is closed whenever its Get succeeds,
including the path where its read fails, while the first response body is
never closed on any path. -/
theorem lesson.httpBodyLeak_closes_second_only (g1 r1 g2 r2 : Bool) :
    lesson.closesAcquired (lesson.HTTPBodyLeak g1 r1 g2 r2).1 2 = true
  ∧ (lesson.HTTPBodyLeak g1 r1 g2 r2).1.contains (.closeBody 1) = false := by
  cases g1 <;> cases r1 <;> cases g2 <;> cases r2 <;> exact ⟨rfl, rfl⟩

/-- Tick receptions contribute no acquired timer to a path. -/
lemma lesson.acquiredTimers_replicate_recv (n id : Nat) (l : List lesson.TimerEv) :
    lesson.acquiredTimers (List.replicate n (.recvTick id) ++ l) =
      lesson.acquiredTimers l := by
  induction n with
  | zero => rfl
  | succ k ih => simpa [List.replicate_succ, lesson.acquiredTimers] using ih

/-- Tick receptions contribute no stopped timer to a path. -/
lemma lesson.stoppedTimers_replicate_recv (n id : Nat) (l : List lesson.TimerEv) :
    lesson.stoppedTimers (List.replicate n (.recvTick id) ++ l) =
      lesson.stoppedTimers l := by
  induction n with
  | zero => rfl
  | succ k ih => simpa [List.replicate_succ, lesson.stoppedTimers] using ih

/-- C1 counterexample: the ticker created by BetterCache.Cleanup is acquired
on the single exit path of the Cleanup function and is stopped nowhere on
it, so Cleanup does not stop its ticker on every exit path. -/
theorem lesson.cleanup_ticker_not_stopped :
    lesson.stopsAllOnExit lesson.cleanupExitPaths = false
  ∧ lesson.acquiredTimers lesson.cleanupFuncPath = [0]
  ∧ lesson.stoppedTimers lesson.cleanupFuncPath = [] := by
  exact ⟨rfl, rfl, rfl⟩

/-- C1 amended: the worker goroutine of GoroutineLeakWithContext stops its
ticker on every one of its exit paths (the deferred Stop runs when the
ctx.Done branch returns, after any number of ticks), but the Cleanup ticker
is not stopped on the exit path of Cleanup, the sweep goroutine it spawns
has no exit path at all, and the execution of TimerLeak stops neither of its
timers: the first has no Stop anywhere and the second only a deferred Stop
that never runs because TimerLeak blocks forever on its empty select. -/
theorem lesson.timer_discipline_amended (n : Nat) :
    lesson.stopsAllOnExit [lesson.workerExitPath n] = true
  ∧ lesson.stopsAllOnExit lesson.cleanupExitPaths = false
  ∧ lesson.cleanupSweepExitPaths = []
  ∧ lesson.stoppedTimers lesson.timerLeakBodyEvents = [] := by
  refine ⟨?_, rfl, rfl, rfl⟩
  simp [lesson.stopsAllOnExit, lesson.workerExitPath, lesson.acquiredTimers,
    lesson.acquiredTimers_replicate_recv, lesson.stoppedTimers,
    lesson.stoppedTimers_replicate_recv, List.contains]

/-- C4: the worker loop of GoroutineLeakWithContext, run with a cancelled
context, terminates at the first scheduler choice that takes the always
enabled ctx.Done branch — so under any schedule that eventually offers the
done branch the goroutine returns — and the good goroutine of ChannelLeak,
with a cancelled context, leaves its select regardless of whether the
channel is ready. -/
theorem lesson.cancelled_worker_terminates (choices : List lesson.SelChoice)
    (chReady : Bool) (h : lesson.SelChoice.done ∈ choices) :
    lesson.workerRun true choices = .terminated
  ∧ lesson.channelGoodStep chReady true = .terminated := by
  constructor
  · induction choices with
    | nil => cases h
    | cons c rest ih =>
        cases c with
        | tick =>
            have hr : lesson.SelChoice.done ∈ rest := by
              cases h with
              | tail _ hm => exact hm
            simpa [lesson.workerRun] using ih hr
        | done => simp [lesson.workerRun]
  · cases chReady <;> rfl

/-- C4 witness: a concrete schedule with one tick then the done branch, and
a select with the channel not ready. -/
theorem lesson.cancelled_worker_terminates_witness :
    lesson.workerRun true [.tick, .done] = .terminated
  ∧ lesson.channelGoodStep false true = .terminated :=
  lesson.cancelled_worker_terminates [.tick, .done] false (by decide)

/-- Per-iteration handle balance of the good DeferInLoopLeak loop. -/
lemma lesson.openCount_deferLoopIter (openOk writeOk : Bool) :
    lesson.openCount (lesson.deferLoopIter openOk writeOk) = 0 := by
  cases openOk <;> cases writeOk <;> rfl

/-- C7: every iteration of the good DeferInLoopLeak loop ends with as many
closes as successful opens — on the success path and on the write-failure
path the deferred Close is the final event of the iteration — and the whole
loop, whatever the per-iteration outcomes, leaves no file handle open, so
handles never accumulate across iterations. -/
theorem lesson.deferLoop_closes_each_iteration (openOk writeOk : Bool)
    (outs : List (Bool × Bool)) :
    lesson.openCount (lesson.deferLoopIter openOk writeOk) = 0
  ∧ (openOk = true →
      (lesson.deferLoopIter openOk writeOk).getLast? = some .close)
  ∧ lesson.openCount (lesson.deferLoopEvents outs) = 0 := by
  refine ⟨lesson.openCount_deferLoopIter openOk writeOk, ?_, ?_⟩
  · intro h; subst h; cases writeOk <;> rfl
  · induction outs with
    | nil => rfl
    | cons o rest ih =>
        simp [lesson.deferLoopEvents, lesson.openCount] at ih ⊢
        simpa [ih] using
          congrArg (fun z => z + ((rest.map
            (fun o => lesson.deferLoopIter o.1 o.2)).flatten.map
              lesson.openDelta).sum)
            (lesson.openCount_deferLoopIter o.1 o.2)

/-- C8: shutdown leaves every token it owns cancelled, reports nothing
exactly when every supervised task reached a terminal state within the grace
period, and otherwise reports exactly the identifiers of the tasks still
running when the grace period elapsed; being a total function, it never
hangs. -/
theorem pattern.shutdown_cancels_and_reports (sup : pattern.Supervisor)
    (grace : Nat) :
    (∀ tk ∈ (pattern.shutdown sup grace).1.tokens,
      pattern.isCancelled tk = true)
  ∧ ((pattern.shutdown sup grace).2 = [] ↔
      ∀ t ∈ sup.tasks, pattern.terminatedWithin grace t = true)
  ∧ (∀ i, i ∈ (pattern.shutdown sup grace).2 ↔
      ∃ t ∈ sup.tasks, pattern.terminatedWithin grace t = false ∧ t.id = i) := by
  refine ⟨?_, ?_, ?_⟩
  · intro tk htk
    simp only [pattern.shutdown, List.mem_map] at htk
    obtain ⟨u, _, rfl⟩ := htk
    rfl
  · simp [pattern.shutdown, List.filter_eq_nil_iff]
  · intro i
    simp [pattern.shutdown, List.mem_filter, and_assoc]

/-- With pairwise distinct keys, lookup finds a value exactly when the pair
is a member of the association list. -/
lemma lesson.lookup_eq_some_iff_mem {β : Type} (k : String) (v : β)
    (l : List (String × β)) (h : (l.map Prod.fst).Nodup) :
    List.lookup k l = some v ↔ (k, v) ∈ l := by
  induction l with
  | nil => simp
  | cons a rest ih =>
      obtain ⟨k₀, v₀⟩ := a
      simp only [List.map_cons, List.nodup_cons] at h
      by_cases hk : k = k₀
      · subst hk
        have hnot : (k, v) ∉ rest := fun hm =>
          h.1 (List.mem_map.mpr ⟨(k, v), hm, rfl⟩)
        simp [List.lookup, hnot, eq_comm]
      · have hne : (k == k₀) = false := beq_eq_false_iff_ne.mpr hk
        simp [List.lookup, hne, ih h.2, hk]

/-- Sweeping keeps the keys pairwise distinct. -/
lemma lesson.sweepPass_keys_nodup (now ttl : Int)
    (items : List (String × lesson.CacheItem))
    (h : (items.map Prod.fst).Nodup) :
    ((lesson.sweepPass now ttl items).map Prod.fst).Nodup :=
  h.sublist ((List.filter_sublist items).map Prod.fst)

/-- C2: one sweep pass, run at instant now over a cache with distinct keys,
leaves an entry findable exactly when it was findable before and its age
does not exceed the ttl: every entry whose age exceeds the ttl is removed,
no entry persists past its timestamp plus ttl, and a surviving entry keeps
its value and timestamp unchanged; Set records the insertion instant the
sweep ages against. The pass is one atomic traversal under the write lock. -/
theorem lesson.sweepPass_removes_expired_only
    (items : List (String × lesson.CacheItem)) (now ttl : Int) (k : String)
    (it : lesson.CacheItem) (value : List UInt8)
    (hnd : (items.map Prod.fst).Nodup) :
    (List.lookup k (lesson.sweepPass now ttl items) = some it ↔
      List.lookup k items = some it ∧ ¬(now - it.timestamp > ttl))
  ∧ List.lookup k (lesson.betterCacheSet now k value items) =
      some ⟨value, now⟩ := by
  constructor
  · rw [lesson.lookup_eq_some_iff_mem k it _
        (lesson.sweepPass_keys_nodup now ttl items hnd),
      lesson.lookup_eq_some_iff_mem k it items hnd]
    simp [lesson.sweepPass, List.mem_filter]
  · simp [lesson.betterCacheSet, lesson.storeEntry, List.lookup]

/-- C2 witness: the two-entry cache swept at instant 10 with ttl 5; the
entry looked up, stamped 8, survives unchanged. -/
theorem lesson.sweepPass_removes_expired_only_witness :
    (List.lookup "b" (lesson.sweepPass 10 5 lesson.sweepWitnessItems) =
          some ⟨[2], 8⟩ ↔
      List.lookup "b" lesson.sweepWitnessItems = some ⟨[2], 8⟩ ∧
        ¬((10 : Int) - (8 : Int) > 5))
  ∧ List.lookup "b" (lesson.betterCacheSet 10 "b" [9] lesson.sweepWitnessItems) =
        some ⟨[9], 10⟩ :=
  lesson.sweepPass_removes_expired_only lesson.sweepWitnessItems
    10 5 "b" ⟨[2], 8⟩ [9] (by decide)

/-- C10: the good variant of SliceLeak (copy into a fresh three-element
slice) views exactly the same elements as the bad reslice of the last three
positions — both are the last three elements of data — while the copy has
length three, capacity three, and a backing array distinct from the one
behind data, which the bad reslice shares. -/
theorem lesson.sliceLeak_copy_equals_reslice :
    lesson.elemsOf lesson.sliceHeap1 lesson.goodSmallInit =
      lesson.elemsOf lesson.sliceHeap0 lesson.badSmall
  ∧ lesson.elemsOf lesson.sliceHeap0 lesson.badSmall =
      lesson.sliceLeakData.drop (lesson.sliceLeakData.length - 3)
  ∧ lesson.goodSmallInit.len = 3
  ∧ lesson.goodSmallInit.cap = 3
  ∧ lesson.goodSmallInit.arrId ≠ lesson.dataSlice.arrId
  ∧ lesson.badSmall.arrId = lesson.dataSlice.arrId := by
  have hbad : lesson.elemsOf lesson.sliceHeap0 lesson.badSmall =
      List.replicate 3 (0 : Int) := by
    show List.take 3 (List.drop (1000000 - 3) (List.replicate 1000000 (0 : Int)))
      = List.replicate 3 0
    rw [List.drop_replicate, List.take_replicate]
    norm_num
  have hdata : lesson.sliceLeakData = List.replicate 1000000 (0 : Int) := rfl
  have hlen : lesson.sliceLeakData.length = 1000000 := by
    rw [hdata, List.length_replicate]
  refine ⟨?_, ?_, rfl, rfl, by decide, rfl⟩
  · show List.take 3 (List.drop 0 (lesson.goCopy (List.replicate 3 0)
      (lesson.elemsOf lesson.sliceHeap0 lesson.badSmall))) =
        lesson.elemsOf lesson.sliceHeap0 lesson.badSmall
    rw [hbad]
    decide
  · rw [hbad, hlen, hdata, List.drop_replicate]
